import Mathlib

/-!
Verification of the Workflow-Orchestrator reliability core.

This file gives a shallow embedding, in Lean 4, of the rule-triggered action
execution engine of the repository: the circuit breaker and retry executor of
`src/lib/errorhandling.ts`, the action execution orchestrator
`executeActionSafely` of `src/lib/actions.ts`, the dead-letter-queue store and
processor of `src/lib/deadLetterQueue.ts`, and the condition evaluator
`shouldExecuteRule` of the trigger dispatch API route.

Conventions of the embedding:
  * times are naturals (milliseconds, as produced by `Date.now()`);
  * a JavaScript dynamic value appearing in a parameter bag is modelled by the
    inductive `JsValue`; a `Record<string, any>` is an association list;
  * an async operation that may throw is modelled by the `Except` it settles
    to; nondeterministic inputs of the code (the clock, `uuidv4()`, the
    outcome of a database call or of an opaque operation) are explicit
    parameters of the embedded functions;
  * the database tables touched by the code (`dead_letter_queue`, `logs`) are
    modelled as lists threaded through the functions that write to them.
-/

namespace WorkflowOrchestrator

/-! ### Dynamic values and parameter bags -/

/-- A JavaScript value as it occurs in trigger parameters, condition values
and action parameters (`string | number | boolean`). -/
inductive JsValue where
  | str (s : String)
  | num (n : Int)
  | bool (b : Bool)
deriving DecidableEq, Repr

/-- A `Record<string, any>` parameter bag, as an association list. -/
abbrev ParamBag := List (String × JsValue)

/-- Indexing `parameters[field]` on a bag: `none` models `undefined`. -/
def ParamBag.lookup (p : ParamBag) (fieldName : String) : Option JsValue :=
  match List.find? (fun kv => kv.1 == fieldName) p with
  | some kv => some kv.2
  | none => none

/-! ### Circuit breaker (`src/lib/errorhandling.ts`, class `CircuitBreaker`)

The class holds `failures`, `lastFailureTime`, `state` plus the constructor
arguments `name`, `threshold = 5`, `resetTimeoutMs = 60000`.  `execute`
receives the operation; in the embedding the operation's settled outcome is
passed as an `Except`, and the returned triple records the outcome seen by the
caller, the breaker after the call, and whether the operation was invoked. -/

inductive CBState where
  | CLOSED
  | OPEN
  | HALF_OPEN
deriving DecidableEq, Repr

structure CircuitBreaker where
  name : String
  threshold : Nat
  resetTimeoutMs : Nat
  failures : Nat
  lastFailureTime : Nat
  state : CBState
deriving DecidableEq, Repr

/-- `new CircuitBreaker(name)` with the default `threshold = 5` and
`resetTimeoutMs = 60000`; fields start at `failures = 0`,
`lastFailureTime = 0`, `state = 'CLOSED'`. -/
def CircuitBreaker.mkDefault (name : String) : CircuitBreaker :=
  { name := name, threshold := 5, resetTimeoutMs := 60000
    failures := 0, lastFailureTime := 0, state := .CLOSED }

/-- `reset()`: zero the failure counter and close the circuit
(`lastFailureTime` is left untouched, as in the source). -/
def CircuitBreaker.reset (cb : CircuitBreaker) : CircuitBreaker :=
  { cb with failures := 0, state := .CLOSED }

/-- Outcome of `CircuitBreaker.execute` as seen by its caller. -/
inductive CBOutcome (ε τ : Type) where
  | circuitOpen
  | ok (v : τ)
  | fail (e : ε)
deriving DecidableEq, Repr

/-- The `try`/`catch` body of `execute`: run the operation; on success reset
when half-open; on failure bump the counter, stamp the failure time, and open
the circuit when the counter reaches the threshold. -/
def CircuitBreaker.runBody {ε τ : Type} (cb : CircuitBreaker) (now : Nat)
    (opResult : Except ε τ) : CBOutcome ε τ × CircuitBreaker :=
  match opResult with
  | .ok v =>
      (.ok v, if cb.state = .HALF_OPEN then cb.reset else cb)
  | .error e =>
      let cb1 := { cb with failures := cb.failures + 1, lastFailureTime := now }
      let cb2 := if cb1.threshold ≤ cb1.failures then { cb1 with state := .OPEN } else cb1
      (.fail e, cb2)

/-- `execute(operation)`: fail fast while open and not yet past the reset
timeout; otherwise (possibly after moving to half-open) invoke the operation.
The `Bool` records whether the operation was invoked. -/
def CircuitBreaker.execute {ε τ : Type} (cb : CircuitBreaker) (now : Nat)
    (opResult : Except ε τ) : CBOutcome ε τ × CircuitBreaker × Bool :=
  if cb.state = .OPEN then
    if cb.resetTimeoutMs < now - cb.lastFailureTime then
      let r := CircuitBreaker.runBody { cb with state := .HALF_OPEN } now opResult
      (r.1, r.2, true)
    else
      (.circuitOpen, cb, false)
  else
    let r := CircuitBreaker.runBody cb now opResult
    (r.1, r.2, true)

/-- Fold a sequence of `execute` calls, each given as (time, operation outcome),
over a breaker. -/
def CircuitBreaker.runCalls {ε τ : Type} (cb : CircuitBreaker)
    (calls : List (Nat × Except ε τ)) : CircuitBreaker :=
  calls.foldl (fun c p => (c.execute p.1 p.2).2.1) cb

/-- Number of failing operations in a call sequence. -/
def countFailures {ε τ : Type} (calls : List (Nat × Except ε τ)) : Nat :=
  calls.countP (fun p => !p.2.isOk)

/-- While the breaker stays below its threshold, a run of calls from a closed
breaker keeps it closed and its failure counter counts exactly the failing
calls; the configuration fields are untouched. -/
theorem runCalls_closed_spec {ε τ : Type} (calls : List (Nat × Except ε τ)) :
    ∀ cb : CircuitBreaker, cb.state = .CLOSED →
      cb.failures + countFailures calls < cb.threshold →
      (cb.runCalls calls).state = .CLOSED ∧
      (cb.runCalls calls).failures = cb.failures + countFailures calls ∧
      (cb.runCalls calls).threshold = cb.threshold := by
  induction calls with
  | nil =>
      intro cb h1 _
      simpa [CircuitBreaker.runCalls, countFailures] using h1
  | cons hd tl ih =>
      intro cb hst hlt
      obtain ⟨t, r⟩ := hd
      cases r with
      | ok v =>
          have hstep : (cb.execute t (Except.ok v : Except ε τ)).2.1 = cb := by
            simp [CircuitBreaker.execute, CircuitBreaker.runBody, hst]
          have hcount : countFailures ((t, (Except.ok v : Except ε τ)) :: tl)
              = countFailures tl := by
            simp [countFailures, Except.isOk, Except.toBool]
          have := ih cb hst (by
            rw [hcount] at hlt
            exact hlt)
          simpa [CircuitBreaker.runCalls, List.foldl_cons, hstep, hcount] using this
      | error e =>
          have hcount : countFailures ((t, (Except.error e : Except ε τ)) :: tl)
              = countFailures tl + 1 := by
            simp [countFailures, List.countP_cons, Except.isOk, Except.toBool]
          rw [hcount] at hlt
          have hbelow : ¬ cb.threshold ≤ cb.failures + 1 := by omega
          have hstep : (cb.execute t (Except.error e : Except ε τ)).2.1
              = { cb with failures := cb.failures + 1, lastFailureTime := t } := by
            simp [CircuitBreaker.execute, CircuitBreaker.runBody, hst, hbelow]
          have h3 := ih { cb with failures := cb.failures + 1, lastFailureTime := t }
            (by simp [hst]) (by simp; omega)
          have hfold : cb.runCalls ((t, (Except.error e : Except ε τ)) :: tl)
              = CircuitBreaker.runCalls
                  { cb with failures := cb.failures + 1, lastFailureTime := t } tl := by
            simp [CircuitBreaker.runCalls, hstep]
          rw [hfold, hcount]
          refine ⟨h3.1, ?_, ?_⟩
          · rw [h3.2.1]
            simp
            omega
          · rw [h3.2.2]

/-- Every `execute` call preserves the invariant that an Open breaker has
accumulated at least `threshold` failures; since a fresh breaker is Closed,
every reachable Open breaker satisfies it (this justifies the counter
hypothesis of the half-open recovery theorem). -/
theorem execute_preserves_open_invariant {ε τ : Type} (cb : CircuitBreaker)
    (now : Nat) (op : Except ε τ)
    (hInv : cb.state = .OPEN → cb.threshold ≤ cb.failures) :
    (cb.execute now op).2.1.state = .OPEN →
      (cb.execute now op).2.1.threshold ≤ (cb.execute now op).2.1.failures := by
  unfold CircuitBreaker.execute CircuitBreaker.runBody CircuitBreaker.reset
  by_cases hO : cb.state = .OPEN <;>
    by_cases hT : cb.resetTimeoutMs < now - cb.lastFailureTime <;>
      cases op <;> simp [hO, hT] <;>
        first
        | exact hInv hO
        | (split_ifs <;> simp_all <;> omega)

/-- Claim C2: with the default threshold 5 and `resetTimeoutMs` 60000, five
consecutive failing calls on a fresh breaker leave it Open (failure counter 5,
`lastFailureTime` stamped by the fifth failure); and any `execute` call on an
Open breaker made while `now - lastFailureTime ≤ resetTimeoutMs` returns the
circuit-open error without invoking the supplied operation and without
changing the breaker. -/
theorem circuit_breaker_trips_then_fails_fast {ε τ : Type} :
    (∀ (nm : String) (t1 t2 t3 t4 t5 : Nat) (e1 e2 e3 e4 e5 : ε),
      CircuitBreaker.runCalls (τ := τ) (.mkDefault nm)
          [(t1, .error e1), (t2, .error e2), (t3, .error e3),
           (t4, .error e4), (t5, .error e5)]
        = { name := nm, threshold := 5, resetTimeoutMs := 60000,
            failures := 5, lastFailureTime := t5, state := .OPEN }) ∧
    (∀ (cb : CircuitBreaker) (now : Nat) (op : Except ε τ),
      cb.state = .OPEN → now - cb.lastFailureTime ≤ cb.resetTimeoutMs →
      cb.execute now op = (.circuitOpen, cb, false)) := by
  constructor
  · intro nm t1 t2 t3 t4 t5 e1 e2 e3 e4 e5
    simp [CircuitBreaker.runCalls, CircuitBreaker.execute, CircuitBreaker.runBody,
      CircuitBreaker.mkDefault, CircuitBreaker.reset]
  · intro cb now op hOpen hWithin
    rw [CircuitBreaker.execute, if_pos hOpen, if_neg (by omega)]

/-- Witness for C2: a breaker tripped open at time 100 rejects a call at time
200 without invoking the operation. -/
theorem circuit_breaker_trips_then_fails_fast_witness :
    CircuitBreaker.execute (ε := Unit) (τ := Unit)
        { name := "action:send_email", threshold := 5, resetTimeoutMs := 60000,
          failures := 5, lastFailureTime := 100, state := .OPEN } 200 (.ok ())
      = (.circuitOpen,
          { name := "action:send_email", threshold := 5, resetTimeoutMs := 60000,
            failures := 5, lastFailureTime := 100, state := .OPEN }, false) :=
  (circuit_breaker_trips_then_fails_fast).2
    { name := "action:send_email", threshold := 5, resetTimeoutMs := 60000,
      failures := 5, lastFailureTime := 100, state := .OPEN } 200 (.ok ())
    rfl (by decide)

/-- Claim C3: on an Open breaker, once strictly more than `resetTimeoutMs` has
elapsed since `lastFailureTime`, the next call is let through as a half-open
trial: a successful operation closes the breaker with the failure counter
zeroed and its result is returned; a failing operation re-opens the breaker
with `lastFailureTime` refreshed to the current time and the error is
re-raised.  (Any reachable Open breaker has `threshold ≤ failures`, which the
hypothesis `hCount` records.) -/
theorem circuit_breaker_half_open_recovery {ε τ : Type}
    (cb : CircuitBreaker) (now : Nat)
    (hOpen : cb.state = .OPEN)
    (hElapsed : cb.resetTimeoutMs < now - cb.lastFailureTime)
    (hCount : cb.threshold ≤ cb.failures) :
    (∀ v : τ, cb.execute (ε := ε) now (.ok v)
        = (.ok v, { cb with failures := 0, state := .CLOSED }, true)) ∧
    (∀ e : ε, cb.execute (τ := τ) now (.error e)
        = (.fail e,
            { cb with failures := cb.failures + 1, lastFailureTime := now, state := .OPEN },
            true)) := by
  obtain ⟨nm, th, rt, f, l, st⟩ := cb
  simp only at hOpen hElapsed hCount
  subst hOpen
  have hth : th ≤ f + 1 := by omega
  constructor
  · intro v
    simp [CircuitBreaker.execute, CircuitBreaker.runBody, CircuitBreaker.reset,
      hElapsed]
  · intro e
    simp [CircuitBreaker.execute, CircuitBreaker.runBody, hElapsed, hth]

/-- Witness for C3: a breaker opened at time 0 with 5 failures, probed at time
60001, recovers on a successful trial and re-opens on a failing one. -/
theorem circuit_breaker_half_open_recovery_witness :
    (CircuitBreaker.execute (ε := Unit) (τ := Unit)
        { name := "action:send_sms", threshold := 5, resetTimeoutMs := 60000,
          failures := 5, lastFailureTime := 0, state := .OPEN } 60001 (.ok ())
      = (.ok (),
          { name := "action:send_sms", threshold := 5, resetTimeoutMs := 60000,
            failures := 0, lastFailureTime := 0, state := .CLOSED }, true)) ∧
    (CircuitBreaker.execute (ε := Unit) (τ := Unit)
        { name := "action:send_sms", threshold := 5, resetTimeoutMs := 60000,
          failures := 5, lastFailureTime := 0, state := .OPEN } 60001 (.error ())
      = (.fail (),
          { name := "action:send_sms", threshold := 5, resetTimeoutMs := 60000,
            failures := 6, lastFailureTime := 60001, state := .OPEN }, true)) :=
  ⟨(circuit_breaker_half_open_recovery
      { name := "action:send_sms", threshold := 5, resetTimeoutMs := 60000,
        failures := 5, lastFailureTime := 0, state := .OPEN } 60001
      rfl (by decide) (by decide)).1 (),
   (circuit_breaker_half_open_recovery
      { name := "action:send_sms", threshold := 5, resetTimeoutMs := 60000,
        failures := 5, lastFailureTime := 0, state := .OPEN } 60001
      rfl (by decide) (by decide)).2 ()⟩

/-- Claim C10: a successful call on a Closed breaker leaves it entirely
unchanged (the counter is zeroed only by a successful half-open trial), so --
with the default threshold 5 -- any call sequence from a fresh breaker with
fewer than 5 failures leaves it Closed with the counter equal to the number of
failures, and a sequence with exactly 4 failures followed by one more failing
call opens the breaker even when successes were interleaved. -/
theorem circuit_breaker_success_frame_and_cumulative_trip {ε τ : Type} :
    (∀ (cb : CircuitBreaker) (now : Nat) (v : τ),
      cb.state = .CLOSED → cb.execute (ε := ε) now (.ok v) = (.ok v, cb, true)) ∧
    (∀ (nm : String) (calls : List (Nat × Except ε τ)),
      countFailures calls < 5 →
      (CircuitBreaker.runCalls (.mkDefault nm) calls).state = .CLOSED ∧
      (CircuitBreaker.runCalls (.mkDefault nm) calls).failures = countFailures calls) ∧
    (∀ (nm : String) (calls : List (Nat × Except ε τ)) (now : Nat) (e : ε),
      countFailures calls = 4 →
      ((CircuitBreaker.runCalls (.mkDefault nm) calls).execute now
          (Except.error e : Except ε τ)).2.1.state = .OPEN) := by
  refine ⟨?_, ?_, ?_⟩
  · intro cb now v hst
    simp [CircuitBreaker.execute, CircuitBreaker.runBody, hst]
  · intro nm calls hlt
    have h := runCalls_closed_spec calls (.mkDefault nm) rfl
      (by simpa [CircuitBreaker.mkDefault] using hlt)
    exact ⟨h.1, by simpa [CircuitBreaker.mkDefault] using h.2.1⟩
  · intro nm calls now e hcount
    have h := runCalls_closed_spec calls (.mkDefault nm) rfl
      (by simp [CircuitBreaker.mkDefault, hcount])
    have hst := h.1
    have hf : (CircuitBreaker.runCalls (.mkDefault nm) calls).failures = 4 := by
      simpa [CircuitBreaker.mkDefault, hcount] using h.2.1
    have hth : (CircuitBreaker.runCalls (.mkDefault nm) calls).threshold = 5 := by
      simpa [CircuitBreaker.mkDefault] using h.2.2
    simp [CircuitBreaker.execute, CircuitBreaker.runBody, hst, hf, hth]

/-- Witness for C10: on the sequence fail, ok, fail, fail, ok, fail (four
failures, successes interleaved) the fresh breaker stays Closed with counter 4
-- the interleaved successes did not reset it -- and one more failure at time
7 opens it. -/
theorem circuit_breaker_success_frame_and_cumulative_trip_witness :
    (CircuitBreaker.execute (ε := Unit) (τ := Unit)
        (CircuitBreaker.mkDefault "action:create_task") 0 (.ok ())
      = (.ok (), CircuitBreaker.mkDefault "action:create_task", true)) ∧
    ((CircuitBreaker.runCalls (CircuitBreaker.mkDefault "action:create_task")
        [(1, .error ()), (2, (Except.ok () : Except Unit Unit)), (3, .error ()),
         (4, .error ()), (5, .ok ()), (6, .error ())]).state = .CLOSED ∧
      (CircuitBreaker.runCalls (CircuitBreaker.mkDefault "action:create_task")
        [(1, .error ()), (2, (Except.ok () : Except Unit Unit)), (3, .error ()),
         (4, .error ()), (5, .ok ()), (6, .error ())]).failures
        = countFailures [(1, .error ()), (2, (Except.ok () : Except Unit Unit)),
            (3, .error ()), (4, .error ()), (5, .ok ()), (6, .error ())]) ∧
    ((CircuitBreaker.runCalls (CircuitBreaker.mkDefault "action:create_task")
        [(1, .error ()), (2, (Except.ok () : Except Unit Unit)), (3, .error ()),
         (4, .error ()), (5, .ok ()), (6, .error ())]).execute 7
        (Except.error () : Except Unit Unit)).2.1.state = .OPEN :=
  ⟨(circuit_breaker_success_frame_and_cumulative_trip).1
      (CircuitBreaker.mkDefault "action:create_task") 0 () rfl,
   (circuit_breaker_success_frame_and_cumulative_trip).2.1
      "action:create_task"
      [(1, .error ()), (2, (Except.ok () : Except Unit Unit)), (3, .error ()),
       (4, .error ()), (5, .ok ()), (6, .error ())] (by decide),
   (circuit_breaker_success_frame_and_cumulative_trip).2.2
      "action:create_task"
      [(1, .error ()), (2, (Except.ok () : Except Unit Unit)), (3, .error ()),
       (4, .error ()), (5, .ok ()), (6, .error ())] 7 () (by decide)⟩

/-! ### Retry executor (`src/lib/errorhandling.ts`, `withRetry`)

The `for` loop of `withRetry` runs `attempt = 0 .. maxRetries`; each iteration
awaits the operation, and on failure either rethrows (when
`attempt >= maxRetries || !retryCondition(error)`) or calls
`onRetry(error, attempt + 1)` and sleeps
`retryDelayMs * backoffMultiplier ^ attempt` before the next iteration.  The
embedding records, per run, the outcome together with the ordered trace of
invocations, `onRetry` callbacks and waits; the operation is modelled by the
outcome of its `i`-th invocation. -/

/-- One observable event of a `withRetry` run. -/
inductive RetryEvent (ε : Type) where
  | invoke (attempt : Nat)
  | onRetry (e : ε) (attemptNumber : Nat)
  | wait (delayMs : Nat)
deriving DecidableEq, Repr

/-- The options record of `withRetry`, with the source's defaults. -/
structure RetryOptions (ε : Type) where
  maxRetries : Nat := 3
  retryDelayMs : Nat := 1000
  backoffMultiplier : Nat := 2
  retryCondition : ε → Bool := fun _ => true

/-- The loop of `withRetry` starting at a given 0-based attempt index. -/
def withRetryFrom {ε τ : Type} (op : Nat → Except ε τ) (o : RetryOptions ε)
    (attempt : Nat) : Except ε τ × List (RetryEvent ε) :=
  match op attempt with
  | .ok v => (.ok v, [.invoke attempt])
  | .error e =>
    if h : o.maxRetries ≤ attempt ∨ o.retryCondition e = false then
      (.error e, [.invoke attempt])
    else
      let rest := withRetryFrom op o (attempt + 1)
      (rest.1, .invoke attempt :: .onRetry e (attempt + 1)
        :: .wait (o.retryDelayMs * o.backoffMultiplier ^ attempt) :: rest.2)
termination_by o.maxRetries - attempt
decreasing_by
  have hlt : attempt < o.maxRetries := by
    rcases Nat.lt_or_ge attempt o.maxRetries with h1 | h1
    · exact h1
    · exact absurd (Or.inl h1) h
  omega

/-- `withRetry(operation, options)`: run the loop from attempt 0. -/
def withRetry {ε τ : Type} (op : Nat → Except ε τ) (o : RetryOptions ε) :
    Except ε τ × List (RetryEvent ε) :=
  withRetryFrom op o 0

/-- Discriminator for invocation events. -/
def isInvokeEvent {ε : Type} : RetryEvent ε → Bool
  | .invoke _ => true
  | _ => false

/-- Number of operation invocations recorded in a trace. -/
def countInvocations {ε : Type} (tr : List (RetryEvent ε)) : Nat :=
  tr.countP isInvokeEvent

/-- The waits recorded in a trace, in order. -/
def waitsOf {ε : Type} (tr : List (RetryEvent ε)) : List Nat :=
  tr.filterMap fun ev =>
    match ev with
    | .wait d => some d
    | _ => none

/-- The loop starting at `attempt ≤ maxRetries` invokes the operation at most
`maxRetries + 1 - attempt` times. -/
theorem countInvocations_withRetryFrom_le {ε τ : Type} (op : Nat → Except ε τ)
    (o : RetryOptions ε) :
    ∀ (n attempt : Nat), o.maxRetries - attempt ≤ n → attempt ≤ o.maxRetries →
      countInvocations (withRetryFrom op o attempt).2 ≤ o.maxRetries + 1 - attempt := by
  intro n
  induction n with
  | zero =>
      intro attempt h0 hle
      have heq : attempt = o.maxRetries := by omega
      cases hop : op attempt with
      | ok v =>
          rw [withRetryFrom, hop]
          simp [countInvocations, isInvokeEvent]
          omega
      | error e =>
          rw [withRetryFrom, hop]
          simp only [dif_pos (Or.inl (show o.maxRetries ≤ attempt by omega))]
          simp [countInvocations, isInvokeEvent]
          omega
  | succ n ih =>
      intro attempt h0 hle
      cases hop : op attempt with
      | ok v =>
          rw [withRetryFrom, hop]
          simp [countInvocations, isInvokeEvent]
          omega
      | error e =>
          by_cases hstop : o.maxRetries ≤ attempt ∨ o.retryCondition e = false
          · rw [withRetryFrom, hop]
            simp only [dif_pos hstop]
            simp [countInvocations, isInvokeEvent]
            omega
          · have hlt : attempt < o.maxRetries := by
              rcases Nat.lt_or_ge attempt o.maxRetries with h1 | h1
              · exact h1
              · exact absurd (Or.inl h1) hstop
            have hrest := ih (attempt + 1) (by omega) (by omega)
            rw [withRetryFrom, hop]
            simp only [dif_neg hstop]
            simp only [countInvocations, List.countP_cons, isInvokeEvent] at hrest ⊢
            simp
            omega

/-- Claim C1: `withRetry` invokes the operation at most `maxRetries + 1`
times; a successful invocation returns its result at once with no further
events; a failed invocation at index `attempt` rethrows immediately (no
`onRetry`, no wait) when `attempt >= maxRetries` or the retry condition
rejects the error, and otherwise fires `onRetry(error, attempt + 1)`, waits
`retryDelayMs * backoffMultiplier ^ attempt`, and continues with the next
attempt; with the defaults (`maxRetries = 3`, delay base 1000, multiplier 2)
an always-failing operation sees exactly the waits 1000, 2000, 4000. -/
theorem with_retry_bounded_backoff {ε τ : Type} (op : Nat → Except ε τ)
    (o : RetryOptions ε) :
    countInvocations (withRetry op o).2 ≤ o.maxRetries + 1 ∧
    (∀ attempt v, op attempt = .ok v →
      withRetryFrom op o attempt = (.ok v, [.invoke attempt])) ∧
    (∀ attempt e, op attempt = .error e →
      o.maxRetries ≤ attempt ∨ o.retryCondition e = false →
      withRetryFrom op o attempt = (.error e, [.invoke attempt])) ∧
    (∀ attempt e, op attempt = .error e →
      attempt < o.maxRetries → o.retryCondition e = true →
      withRetryFrom op o attempt
        = ((withRetryFrom op o (attempt + 1)).1,
            .invoke attempt :: .onRetry e (attempt + 1)
              :: .wait (o.retryDelayMs * o.backoffMultiplier ^ attempt)
              :: (withRetryFrom op o (attempt + 1)).2)) ∧
    waitsOf (withRetry (fun _ => (Except.error () : Except Unit Unit)) {}).2
      = [1000, 2000, 4000] := by
  refine ⟨?_, ?_, ?_, ?_, ?_⟩
  · exact countInvocations_withRetryFrom_le op o (o.maxRetries - 0) 0 le_rfl (Nat.zero_le _)
  · intro attempt v hop
    rw [withRetryFrom, hop]
  · intro attempt e hop hstop
    rw [withRetryFrom, hop]
    simp only [dif_pos hstop]
  · intro attempt e hop hlt hcond
    have hneg : ¬(o.maxRetries ≤ attempt ∨ o.retryCondition e = false) := by
      rintro (h1 | h2)
      · omega
      · rw [hcond] at h2
        cases h2
    rw [withRetryFrom, hop]
    simp only [dif_neg hneg]
  · simp [withRetry, withRetryFrom, waitsOf]

/-- Witness for C1: an operation that fails on attempts 0 and 1 and succeeds
on attempt 2, under the default options, is invoked three times (within the
bound of four), retries attempt 0 with a 1000 ms wait, and returns the
attempt-2 success as soon as it occurs. -/
theorem with_retry_bounded_backoff_witness :
    countInvocations (withRetry
        (fun i => if i < 2 then (Except.error () : Except Unit Nat) else .ok 7)
        {}).2 ≤ 3 + 1 ∧
    withRetryFrom
        (fun i => if i < 2 then (Except.error () : Except Unit Nat) else .ok 7)
        {} 2 = (.ok 7, [.invoke 2]) ∧
    withRetryFrom
        (fun i => if i < 2 then (Except.error () : Except Unit Nat) else .ok 7)
        {} 0
      = ((withRetryFrom
            (fun i => if i < 2 then (Except.error () : Except Unit Nat) else .ok 7)
            {} 1).1,
          .invoke 0 :: .onRetry () 1 :: .wait (1000 * 2 ^ 0)
            :: (withRetryFrom
                  (fun i => if i < 2 then (Except.error () : Except Unit Nat) else .ok 7)
                  {} 1).2) ∧
    waitsOf (withRetry (fun _ => (Except.error () : Except Unit Unit)) {}).2
      = [1000, 2000, 4000] :=
  ⟨(with_retry_bounded_backoff
      (fun i => if i < 2 then (Except.error () : Except Unit Nat) else .ok 7) {}).1,
   (with_retry_bounded_backoff
      (fun i => if i < 2 then (Except.error () : Except Unit Nat) else .ok 7) {}).2.1
      2 7 rfl,
   (with_retry_bounded_backoff
      (fun i => if i < 2 then (Except.error () : Except Unit Nat) else .ok 7) {}).2.2.2.1
      0 () rfl (by decide) rfl,
   (with_retry_bounded_backoff
      (fun i => if i < 2 then (Except.error () : Except Unit Nat) else .ok 7) {}).2.2.2.2⟩

/-! ### Rules and condition evaluation (trigger dispatch API route,
`shouldExecuteRule`) -/

/-- The `operator` union of `RuleCondition` (`src/types/index.tsx`). -/
inductive CondOperator where
  | equals
  | not_equals
  | greater_than
  | less_than
  | contains
  | starts_with
  | ends_with
deriving DecidableEq, Repr

/-- A rule condition `{ field, operator, value }`. -/
structure RuleCondition where
  field : String
  operator : CondOperator
  value : JsValue
deriving DecidableEq, Repr

/-- `schedule: 'immediate' | 'delayed'`. -/
inductive Schedule where
  | immediate
  | delayed
deriving DecidableEq, Repr

/-- The `Rule` interface of `src/types/index.tsx` (an absent `conditions`
array is modelled as the empty list, which the evaluator treats the same
way). -/
structure Rule where
  id : String
  name : String
  description : Option String
  triggerId : String
  triggerParams : ParamBag
  actionId : String
  actionParams : ParamBag
  schedule : Schedule
  delay : Nat
  conditions : List RuleCondition
  enabled : Bool
  createdAt : String
  updatedAt : String
deriving DecidableEq, Repr

/-- JavaScript strict equality `value === condition.value`, where the left
side may be `undefined` (a missing parameter). -/
def jsStrictEq (v : Option JsValue) (w : JsValue) : Bool :=
  match v with
  | some x => x == w
  | none => false

/-- The `String(...)` coercion applied by the `contains` branch. -/
def jsStringOfValue : JsValue → String
  | .str s => s
  | .num n => toString n
  | .bool b => if b then "true" else "false"

/-- `String(...)` on a possibly-undefined lookup result. -/
def jsStringOfLookup : Option JsValue → String
  | some v => jsStringOfValue v
  | none => "undefined"

/-- Character-list prefix test (used for substring search). -/
def charsStartWith : List Char → List Char → Bool
  | _, [] => true
  | [], _ :: _ => false
  | c :: cs, d :: ds => c == d && charsStartWith cs ds

/-- Character-list substring test, the semantics of
`String.prototype.includes`. -/
def charsInclude : List Char → List Char → Bool
  | [], needle => needle.isEmpty
  | c :: cs, needle => charsStartWith (c :: cs) needle || charsInclude cs needle

/-- `haystack.includes(needle)` on strings. -/
def jsIncludes (s sub : String) : Bool :=
  charsInclude s.data sub.data

/-- `shouldExecuteRule` from the trigger dispatch route: with no conditions
the rule always executes; otherwise every condition must pass, where the
`switch` implements `equals`, `not_equals` and `contains` and the `default`
arm returns `true` for every other operator. -/
def shouldExecuteRule (rule : Rule) (parameters : ParamBag) : Bool :=
  if rule.conditions.isEmpty then true
  else rule.conditions.all fun condition =>
    let value := parameters.lookup condition.field
    match condition.operator with
    | .equals => jsStrictEq value condition.value
    | .not_equals => !jsStrictEq value condition.value
    | .contains => jsIncludes (jsStringOfLookup value) (jsStringOfValue condition.value)
    | _ => true

/-- Modelled from the spec: the §3 operator semantics for a single condition
(`Equals|NotEquals|GreaterThan|LessThan|Contains|StartsWith|EndsWith`), with
`greater_than`/`less_than` as strict numeric comparisons and
`starts_with`/`ends_with` as string pattern tests.  Used to compare the
spec's condition semantics against `shouldExecuteRule`. -/
def specConditionHolds (condition : RuleCondition) (parameters : ParamBag) : Bool :=
  let value := parameters.lookup condition.field
  match condition.operator with
  | .equals => jsStrictEq value condition.value
  | .not_equals => !jsStrictEq value condition.value
  | .greater_than =>
      match value, condition.value with
      | some (.num a), .num b => decide (b < a)
      | _, _ => false
  | .less_than =>
      match value, condition.value with
      | some (.num a), .num b => decide (a < b)
      | _, _ => false
  | .contains => jsIncludes (jsStringOfLookup value) (jsStringOfValue condition.value)
  | .starts_with =>
      match value, condition.value with
      | some (.str s), .str p => charsStartWith s.data p.data
      | _, _ => false
  | .ends_with =>
      match value, condition.value with
      | some (.str s), .str p => charsStartWith s.data.reverse p.data.reverse
      | _, _ => false

/-- A rule carrying one `greater_than` condition requiring `amount > 100`. -/
def gtCondition : RuleCondition :=
  { field := "amount", operator := .greater_than, value := .num 100 }

/-- A dispatch-candidate rule guarded by `gtCondition`. -/
def gtRule : Rule :=
  { id := "rule-1", name := "High amount", description := none,
    triggerId := "t1", triggerParams := [], actionId := "send_email",
    actionParams := [], schedule := .immediate, delay := 0,
    conditions := [gtCondition], enabled := true,
    createdAt := "2024-01-01", updatedAt := "2024-01-01" }

/-- Trigger parameters with `amount = 50`, which is not greater than 100. -/
def gtParams : ParamBag :=
  [("amount", .num 50)]

/-- Claim C5, evaluated at the failing input: the dispatcher's
`shouldExecuteRule` implements only `equals`, `not_equals` and `contains`;
its `default` arm accepts every `greater_than` condition, so the rule guarded
by `amount > 100` is executed on `amount = 50` even though the spec's §3
semantics of `greater_than` rejects that parameter bag. -/
theorem greater_than_condition_is_ignored_by_dispatcher :
    shouldExecuteRule gtRule gtParams = true ∧
    specConditionHolds gtCondition gtParams = false := by
  constructor
  · rfl
  · rfl

/-! ### Dead letter queue store and the action execution orchestrator
(`src/lib/errorhandling.ts` `addToDeadLetterQueue`, `src/lib/actions.ts`
`executeActionSafely`)

`uuidv4()` results and `Date.now()` readings are explicit parameters; the
`dead_letter_queue` and `logs` tables are lists in a `Db` record.  The
informational `stackTrace` and `processingResult` columns, which no claim
touches, are not modelled. -/

/-- `status: 'pending' | 'processing' | 'processed' | 'failed'`. -/
inductive DLQStatus where
  | pending
  | processing
  | processed
  | failed
deriving DecidableEq, Repr

/-- A `dead_letter_queue` row (the `DLQItem` interface). -/
structure DLQItem where
  id : String
  ruleId : String
  ruleName : String
  triggerId : String
  actionId : String
  actionParams : ParamBag
  context : ParamBag
  error : String
  timestamp : Nat
  retryAttempts : Nat
  status : DLQStatus
  lastProcessedAt : Option Nat
deriving DecidableEq, Repr

/-- A `logs` row, reduced to the fields the claims observe. -/
structure LogEntry where
  ruleName : String
  message : String
deriving DecidableEq, Repr

/-- The two durable tables this core writes. -/
structure Db where
  dlq : List DLQItem
  logs : List LogEntry
deriving DecidableEq, Repr

/-- `logError`: append one structured error record to `logs` (the returned
correlation id is an explicit parameter at each call site). -/
def logErrorWrite (ruleName msg : String) (db : Db) : Db :=
  { db with logs := db.logs ++ [{ ruleName := ruleName, message := "Error: " ++ msg }] }

/-- The row `addToDeadLetterQueue` inserts: fresh id, the rule's identifiers
and parameters, the caller's context, `retryAttempts = 0`,
`status = 'pending'`, `lastProcessedAt = null`. -/
def dlqItemOf (freshId : String) (rule : Rule) (errMsg : String)
    (context : ParamBag) (now : Nat) : DLQItem :=
  { id := freshId, ruleId := rule.id, ruleName := rule.name,
    triggerId := rule.triggerId, actionId := rule.actionId,
    actionParams := rule.actionParams, context := context, error := errMsg,
    timestamp := now, retryAttempts := 0, status := .pending,
    lastProcessedAt := none }

/-- `addToDeadLetterQueue(rule, error, context)`: insert one new row. -/
def addToDeadLetterQueue (rule : Rule) (errMsg : String) (context : ParamBag)
    (freshId : String) (now : Nat) (dlq : List DLQItem) : List DLQItem :=
  dlq ++ [dlqItemOf freshId rule errMsg context now]

/-- The ids of the merged action registry of `src/lib/actions.ts` (the base
actions plus the hospitality actions; the duplicate `test_failure` entry is
collapsed by `mergedActions`). -/
def actionIds : List String :=
  ["send_email", "send_sms", "create_task", "update_record", "call_webhook",
   "notify_slack", "test_failure", "send_welcome_email",
   "notify_cleaning_staff", "notify_front_desk", "send_thank_you_email",
   "notify_maintenance_team", "send_guest_notification",
   "create_maintenance_task", "offer_room_upgrade", "update_booking",
   "send_checkout_reminder"]

/-- `getActionById(actionId)` resolves exactly when the id is registered. -/
def actionResolves (actionId : String) : Bool :=
  actionIds.contains actionId

/-- `ActionError(message, actionId, parameters)`. -/
structure ActionError where
  message : String
  actionId : String
  parameters : ParamBag
deriving DecidableEq, Repr

/-- The `ActionExecutionResult` returned by a successful execution. -/
structure ActionExecutionResult where
  success : Bool
  message : String
  mock : Bool
deriving DecidableEq, Repr

/-- The options record of `executeActionSafely`, with the source defaults. -/
structure ExecOptions where
  maxRetries : Nat := 3
  isRetry : Bool := false
  context : ParamBag := []
deriving DecidableEq, Repr

/-- `executeActionSafely(actionId, parameters, rule?, options)`.  The breaker-
guarded, retry-wrapped execution (which performs its own success/retry
logging) is abstracted by the `Except` it settles to (`inner`); this function
adds the source's orchestration around it: fail fast (before the `try`) when
the action id does not resolve; on an inner error build the `ActionError`
from `error.message || 'Action execution failed'`, log it under the rule's
name (or `'Manual Action'`), enqueue one DLQ row when a `rule` was supplied,
and rethrow with the ` (Error ID: <id>)` suffix appended. -/
def executeActionSafely (actionId : String) (parameters : ParamBag)
    (rule : Option Rule) (opts : ExecOptions)
    (inner : Except String ActionExecutionResult)
    (errorId : String) (dlqId : String) (now : Nat) (db : Db) :
    Except ActionError ActionExecutionResult × Db :=
  if actionResolves actionId = false then
    (.error { message := "Action with ID " ++ actionId ++ " not found",
              actionId := actionId, parameters := parameters }, db)
  else
    match inner with
    | .ok r => (.ok r, db)
    | .error msg =>
        let baseMsg := if msg = "" then "Action execution failed" else msg
        let ruleName := match rule with
          | some r => r.name
          | none => "Manual Action"
        let db1 := logErrorWrite ruleName baseMsg db
        let db2 := match rule with
          | some r =>
              { db1 with dlq := addToDeadLetterQueue r baseMsg opts.context dlqId now db1.dlq }
          | none => db1
        (.error { message := baseMsg ++ " (Error ID: " ++ errorId ++ ")",
                  actionId := actionId, parameters := parameters }, db2)

/-- Claim C4: when the guarded execution of a known action fails and a rule
was supplied, `executeActionSafely` appends exactly one new DLQ row, with
status `pending` and `retryAttempts = 0`; the same failure without a rule
leaves the DLQ untouched. -/
theorem execute_action_safely_dlq_escalation
    (actionId : String) (parameters : ParamBag) (r : Rule) (opts : ExecOptions)
    (msg errorId dlqId : String) (now : Nat) (db : Db)
    (hKnown : actionResolves actionId = true) :
    (∃ item : DLQItem,
      (executeActionSafely actionId parameters (some r) opts (.error msg)
          errorId dlqId now db).2.dlq = db.dlq ++ [item] ∧
      item.status = .pending ∧ item.retryAttempts = 0) ∧
    (executeActionSafely actionId parameters none opts (.error msg)
        errorId dlqId now db).2.dlq = db.dlq := by
  constructor
  · refine ⟨dlqItemOf dlqId r (if msg = "" then "Action execution failed" else msg)
      opts.context now, ?_, rfl, rfl⟩
    simp [executeActionSafely, hKnown, addToDeadLetterQueue, logErrorWrite]
  · simp [executeActionSafely, hKnown, logErrorWrite]

/-- A sample rule used to exercise the DLQ escalation path. -/
def sampleRule : Rule :=
  { id := "rule-42", name := "Escalation sample", description := none,
    triggerId := "t1", triggerParams := [], actionId := "test_failure",
    actionParams := [("shouldFail", .bool true)], schedule := .immediate,
    delay := 0, conditions := [], enabled := true,
    createdAt := "2024-01-01", updatedAt := "2024-01-01" }

/-- Witness for C4: a failing `test_failure` execution with `sampleRule`
appends one pending, zero-retry DLQ row; without a rule the DLQ stays
empty. -/
theorem execute_action_safely_dlq_escalation_witness :
    (∃ item : DLQItem,
      (executeActionSafely "test_failure" [] (some sampleRule) {}
          (.error "Intentional test failure") "eid-1" "dlq-1" 1000
          { dlq := [], logs := [] }).2.dlq = [] ++ [item] ∧
      item.status = .pending ∧ item.retryAttempts = 0) ∧
    (executeActionSafely "test_failure" [] none {}
        (.error "Intentional test failure") "eid-1" "dlq-1" 1000
        { dlq := [], logs := [] }).2.dlq = [] :=
  execute_action_safely_dlq_escalation "test_failure" [] sampleRule {}
    "Intentional test failure" "eid-1" "dlq-1" 1000 { dlq := [], logs := [] }
    (by decide)

/-- Claim C7 counterexample: the unknown-action fast-fail of
`executeActionSafely` raises `Action with ID <id> not found` with no
` (Error ID: <id>)` suffix, so not every raised error carries the
correlation suffix. -/
theorem unknown_action_error_lacks_error_id_suffix :
    (executeActionSafely "nonexistent_action" [] none {}
        (.ok { success := true, message := "", mock := true })
        "eid-1" "dlq-1" 0 { dlq := [], logs := [] }).1
      = .error { message := "Action with ID nonexistent_action not found",
                 actionId := "nonexistent_action", parameters := [] } ∧
    ¬ ∃ base errorId : String,
        "Action with ID nonexistent_action not found"
          = base ++ " (Error ID: " ++ errorId ++ ")" := by
  constructor
  · rfl
  · rintro ⟨base, eid, heq⟩
    have hd := congrArg String.data heq
    rw [String.data_append, String.data_append, String.data_append] at hd
    have h2 : ("Action with ID nonexistent_action not found").data.getLast?
        = some ')' := by
      rw [hd]
      have hz : (")" : String).data = [')'] := rfl
      rw [hz]
      exact List.getLast?_concat _
    have h3 : ("Action with ID nonexistent_action not found").data.getLast?
        = some 'd' := by decide
    rw [h3] at h2
    exact absurd (Option.some.inj h2) (by decide)

/-- Claim C7 as amended: every error `executeActionSafely` raises from the
guarded execution path (any known action, with or without a rule) carries the
` (Error ID: <id>)` suffix with the Logger's correlation id; only the
unknown-action fast-fail, thrown before the `try`, is an `ActionError`
without the suffix. -/
theorem execute_action_safely_error_id_suffix
    (actionId : String) (parameters : ParamBag) (rule : Option Rule)
    (opts : ExecOptions) (msg errorId dlqId : String) (now : Nat) (db : Db) :
    (actionResolves actionId = true →
      ∃ base,
        (executeActionSafely actionId parameters rule opts (.error msg)
            errorId dlqId now db).1
          = .error { message := base ++ " (Error ID: " ++ errorId ++ ")",
                     actionId := actionId, parameters := parameters }) ∧
    (actionResolves actionId = false →
      (executeActionSafely actionId parameters rule opts (.error msg)
          errorId dlqId now db).1
        = .error { message := "Action with ID " ++ actionId ++ " not found",
                   actionId := actionId, parameters := parameters }) := by
  constructor
  · intro hKnown
    refine ⟨if msg = "" then "Action execution failed" else msg, ?_⟩
    simp [executeActionSafely, hKnown]
  · intro hUnknown
    simp [executeActionSafely, hUnknown]

/-- Witness for C7's amended theorem: a failing known action raises a
suffixed message, and the unknown id raises the bare not-found message. -/
theorem execute_action_safely_error_id_suffix_witness :
    (∃ base,
      (executeActionSafely "send_email" [] none {} (.error "boom")
          "eid-9" "dlq-9" 0 { dlq := [], logs := [] }).1
        = .error { message := base ++ " (Error ID: " ++ "eid-9" ++ ")",
                   actionId := "send_email", parameters := [] }) ∧
    (executeActionSafely "nope" [] none {} (.error "boom")
        "eid-9" "dlq-9" 0 { dlq := [], logs := [] }).1
      = .error { message := "Action with ID " ++ "nope" ++ " not found",
                 actionId := "nope", parameters := [] } :=
  ⟨(execute_action_safely_error_id_suffix "send_email" [] none {} "boom"
      "eid-9" "dlq-9" 0 { dlq := [], logs := [] }).1 (by decide),
   (execute_action_safely_error_id_suffix "nope" [] none {} "boom"
      "eid-9" "dlq-9" 0 { dlq := [], logs := [] }).2 (by decide)⟩

/-! ### DLQ processor (`src/lib/deadLetterQueue.ts`) and the single-item
retry endpoint (`src/pages/api/dead-letter-queue/[id]/retry.ts`)

`processDLQItem` re-fetches the rule (its `Except` outcome is a parameter)
and re-runs the action through `executeActionSafely`; the re-run is
abstracted by `exec`, applied to the re-fetched rule and to the options the
source passes, which the result records so the call contract is visible. -/

/-- `processDLQItem(item)`: on a missing rule, mark the row failed; otherwise
re-execute through the orchestrator with `maxRetries = 1`, `isRetry = true`
and the item's context; on success mark processed, on failure mark failed
when `retryAttempts + 1 >= 3` and pending otherwise.  Every path increments
`retryAttempts` and stamps `lastProcessedAt`. -/
def processDLQItem (item : DLQItem) (ruleRes : Except String Rule)
    (exec : Rule → ExecOptions → Except String ActionExecutionResult)
    (now : Nat) : DLQItem × Option (Rule × ExecOptions) :=
  match ruleRes with
  | .error _ =>
      ({ item with
          status := .failed
          retryAttempts := item.retryAttempts + 1
          lastProcessedAt := some now }, none)
  | .ok rule =>
      let opts : ExecOptions :=
        { maxRetries := 1, isRetry := true, context := item.context }
      match exec rule opts with
      | .ok _ =>
          ({ item with
              status := .processed
              retryAttempts := item.retryAttempts + 1
              lastProcessedAt := some now }, some (rule, opts))
      | .error _ =>
          let maxRetries := 3
          let finalStatus :=
            if maxRetries ≤ item.retryAttempts + 1 then DLQStatus.failed
            else DLQStatus.pending
          ({ item with
              status := finalStatus
              retryAttempts := item.retryAttempts + 1
              lastProcessedAt := some now }, some (rule, opts))

/-- The retry endpoint's fetch: the row with the requested id, with no
filtering on status. -/
def fetchDlqItem (items : List DLQItem) (itemId : String) : Option DLQItem :=
  items.find? (fun i => i.id == itemId)

/-- `POST /api/dead-letter-queue/[id]/retry`: fetch the row by id and hand it
to `processDLQItem`; 404 (`none`) when no such row. -/
def retryDlqItem (items : List DLQItem) (itemId : String)
    (ruleRes : Except String Rule)
    (exec : Rule → ExecOptions → Except String ActionExecutionResult)
    (now : Nat) : Option (DLQItem × Option (Rule × ExecOptions)) :=
  match fetchDlqItem items itemId with
  | none => none
  | some item => some (processDLQItem item ruleRes exec now)

/-- The options record of `processDLQBatch`, with the source defaults. -/
structure BatchOptions where
  olderThanMinutes : Nat := 5
  specificIds : Option (List String) := none
  maxRetryAttempts : Nat := 3
deriving DecidableEq, Repr

/-- The row filter of `processDLQBatch`'s query: `status = 'pending'`,
`retryAttempts < maxRetryAttempts`, the age cutoff when `olderThanMinutes >
0`, and the id restriction when a non-empty `specificIds` is supplied. -/
def dlqEligible (opts : BatchOptions) (now : Nat) (i : DLQItem) : Bool :=
  i.status == .pending && i.retryAttempts < opts.maxRetryAttempts
    && (if 0 < opts.olderThanMinutes
        then decide (i.timestamp < now - opts.olderThanMinutes * 60000)
        else true)
    && (match opts.specificIds with
        | some ids => if ids.isEmpty then true else ids.contains i.id
        | none => true)

/-- The selection of `processDLQBatch(limit, options)`: the eligible rows,
ordered by ascending timestamp (a sort models the query's
`order('timestamp', ascending)`), capped at `limit`. -/
def selectDLQBatch (items : List DLQItem) (limit : Nat) (opts : BatchOptions)
    (now : Nat) : List DLQItem :=
  (List.insertionSort (fun a b => a.timestamp ≤ b.timestamp)
      (items.filter (dlqEligible opts now))).take limit

instance : IsTotal DLQItem (fun a b => a.timestamp ≤ b.timestamp) :=
  ⟨fun a b => Nat.le_total a.timestamp b.timestamp⟩

instance : IsTrans DLQItem (fun a b => a.timestamp ≤ b.timestamp) :=
  ⟨fun _ _ _ h1 h2 => Nat.le_trans h1 h2⟩

/-- Claim C6: for a DLQ item whose rule still exists, `processDLQItem`
re-executes through the orchestrator with `maxRetries = 1` and
`isRetry = true` (visible in the recorded call); success updates the row to
`processed` with `retryAttempts + 1` and `lastProcessedAt = now`; failure
increments `retryAttempts` and the status becomes `failed` exactly when the
incremented count reaches the default ceiling 3, else stays `pending` — in
particular an item at `retryAttempts = 2` that fails again becomes
`failed`. -/
theorem process_dlq_item_reexecution (item : DLQItem) (rule : Rule)
    (exec : Rule → ExecOptions → Except String ActionExecutionResult)
    (now : Nat) :
    (∀ r, exec rule { maxRetries := 1, isRetry := true, context := item.context } = .ok r →
      processDLQItem item (.ok rule) exec now
        = ({ item with
              status := .processed
              retryAttempts := item.retryAttempts + 1
              lastProcessedAt := some now },
           some (rule, { maxRetries := 1, isRetry := true, context := item.context }))) ∧
    (∀ e, exec rule { maxRetries := 1, isRetry := true, context := item.context } = .error e →
      processDLQItem item (.ok rule) exec now
        = ({ item with
              status := if 3 ≤ item.retryAttempts + 1 then DLQStatus.failed
                        else DLQStatus.pending
              retryAttempts := item.retryAttempts + 1
              lastProcessedAt := some now },
           some (rule, { maxRetries := 1, isRetry := true, context := item.context }))) ∧
    (item.retryAttempts = 2 →
      ∀ e, exec rule { maxRetries := 1, isRetry := true, context := item.context } = .error e →
        (processDLQItem item (.ok rule) exec now).1.status = DLQStatus.failed) := by
  refine ⟨?_, ?_, ?_⟩
  · intro r hexec
    simp [processDLQItem, hexec]
  · intro e hexec
    simp [processDLQItem, hexec]
  · intro hra e hexec
    simp [processDLQItem, hexec, hra]

/-- A DLQ row parked at the default retry ceiling minus one. -/
def almostExhaustedItem : DLQItem :=
  { id := "dlq-22", ruleId := "rule-42", ruleName := "Escalation sample",
    triggerId := "t1", actionId := "test_failure", actionParams := [],
    context := [], error := "boom", timestamp := 100, retryAttempts := 2,
    status := .pending, lastProcessedAt := none }

/-- Witness for C6: a pending row retried successfully becomes `processed`
with the recorded `maxRetries = 1, isRetry = true` call, and the row at
`retryAttempts = 2` that fails again becomes `failed`. -/
theorem process_dlq_item_reexecution_witness :
    processDLQItem { almostExhaustedItem with retryAttempts := 0 }
        (.ok sampleRule) (fun _ _ => .ok { success := true, message := "ok", mock := true }) 500
      = ({ almostExhaustedItem with
            retryAttempts := 0 + 1
            status := .processed
            lastProcessedAt := some 500 },
         some (sampleRule, { maxRetries := 1, isRetry := true, context := [] })) ∧
    (processDLQItem almostExhaustedItem (.ok sampleRule)
        (fun _ _ => .error "still failing") 500).1.status = DLQStatus.failed :=
  ⟨by
    have h := (process_dlq_item_reexecution
        { almostExhaustedItem with retryAttempts := 0 } sampleRule
        (fun _ _ => .ok { success := true, message := "ok", mock := true }) 500).1
        { success := true, message := "ok", mock := true } rfl
    simpa using h,
   (process_dlq_item_reexecution almostExhaustedItem sampleRule
      (fun _ _ => .error "still failing") 500).2.2 rfl "still failing" rfl⟩

/-- A DLQ row already reclaimed (`status = 'processed'`, one retry used). -/
def processedItem : DLQItem :=
  { id := "dlq-7", ruleId := "rule-42", ruleName := "Escalation sample",
    triggerId := "t1", actionId := "test_failure", actionParams := [],
    context := [], error := "boom", timestamp := 100, retryAttempts := 1,
    status := .processed, lastProcessedAt := some 200 }

/-- Claim C8 counterexample: the single-item retry endpoint fetches a row by
id with no status filter, so a `processed` row handed to `processDLQItem`
that fails again is updated back to `pending` (1 + 1 < 3) — the status does
move backwards out of `processed`. -/
theorem processed_item_can_return_to_pending :
    processedItem.status = DLQStatus.processed ∧
    retryDlqItem [processedItem] "dlq-7" (.ok sampleRule)
        (fun _ _ => .error "boom") 300
      = some (processDLQItem processedItem (.ok sampleRule)
          (fun _ _ => .error "boom") 300) ∧
    (processDLQItem processedItem (.ok sampleRule)
        (fun _ _ => .error "boom") 300).1.status = DLQStatus.pending := by
  refine ⟨rfl, rfl, rfl⟩

/-- Claim C8 as amended: `retryAttempts` never decreases — every
`processDLQItem` path increments it and enqueued rows start at 0 — and the
batch path selects only `pending` rows, so `processed`/`failed` rows are
untouched by batch sweeps; only the status-blind single-item retry endpoint
can move a `processed` or `failed` row back to `pending`. -/
theorem dlq_retry_attempts_monotone :
    (∀ (item : DLQItem) (ruleRes : Except String Rule)
        (exec : Rule → ExecOptions → Except String ActionExecutionResult)
        (now : Nat),
      item.retryAttempts ≤ (processDLQItem item ruleRes exec now).1.retryAttempts) ∧
    (∀ (freshId : String) (rule : Rule) (errMsg : String) (ctx : ParamBag)
        (now : Nat),
      (dlqItemOf freshId rule errMsg ctx now).retryAttempts = 0 ∧
      (dlqItemOf freshId rule errMsg ctx now).status = .pending) ∧
    (∀ (items : List DLQItem) (limit : Nat) (opts : BatchOptions) (now : Nat)
        (i : DLQItem),
      i ∈ selectDLQBatch items limit opts now → i.status = .pending) := by
  refine ⟨?_, ?_, ?_⟩
  · intro item ruleRes exec now
    cases ruleRes with
    | error m => simp [processDLQItem]
    | ok rule =>
        cases hexec : exec rule { maxRetries := 1, isRetry := true, context := item.context } with
        | ok r => simp [processDLQItem, hexec]
        | error e => simp [processDLQItem, hexec]
  · intro freshId rule errMsg ctx now
    exact ⟨rfl, rfl⟩
  · intro items limit opts now i hmem
    have h1 : i ∈ List.insertionSort (fun a b => a.timestamp ≤ b.timestamp)
        (items.filter (dlqEligible opts now)) := List.mem_of_mem_take hmem
    have h2 : i ∈ items.filter (dlqEligible opts now) :=
      (List.perm_insertionSort _ _).mem_iff.mp h1
    have h3 := List.of_mem_filter h2
    simp only [dlqEligible, Bool.and_eq_true, beq_iff_eq] at h3
    exact h3.1.1.1

/-- Witness for C8's amended theorem: a concrete `processDLQItem` run does
not decrease `retryAttempts`, and a concrete batch selection only yields
pending rows. -/
theorem dlq_retry_attempts_monotone_witness :
    processedItem.retryAttempts
      ≤ (processDLQItem processedItem (.ok sampleRule)
          (fun _ _ => .error "boom") 300).1.retryAttempts ∧
    (dlqItemOf "dlq-1" sampleRule "boom" [] 77).retryAttempts = 0 ∧
    (almostExhaustedItem ∈ selectDLQBatch [almostExhaustedItem] 5 {} 1000000 →
      almostExhaustedItem.status = .pending) :=
  ⟨(dlq_retry_attempts_monotone).1 processedItem (.ok sampleRule)
      (fun _ _ => .error "boom") 300,
   ((dlq_retry_attempts_monotone).2.1 "dlq-1" sampleRule "boom" [] 77).1,
   (dlq_retry_attempts_monotone).2.2 [almostExhaustedItem] 5 {} 1000000
      almostExhaustedItem⟩

/-- Eligible DLQ row stamped at time 1000. -/
def fifoItem1 : DLQItem :=
  { id := "dlq-a", ruleId := "r1", ruleName := "Rule A", triggerId := "t1",
    actionId := "send_email", actionParams := [], context := [],
    error := "boom", timestamp := 1000, retryAttempts := 0,
    status := .pending, lastProcessedAt := none }

/-- Eligible DLQ row stamped at time 2000. -/
def fifoItem2 : DLQItem :=
  { fifoItem1 with id := "dlq-b", timestamp := 2000 }

/-- Eligible DLQ row stamped at time 3000. -/
def fifoItem3 : DLQItem :=
  { fifoItem1 with id := "dlq-c", timestamp := 3000 }

/-- Claim C9: the batch selection takes only `pending` rows with
`retryAttempts < maxRetryAttempts`, returns at most `limit` rows in
ascending-timestamp order, and on three eligible rows stamped
1000 < 2000 < 3000 a `limit = 2` batch takes the two oldest, never the
newest ahead of them. -/
theorem process_dlq_batch_selection (items : List DLQItem) (limit : Nat)
    (opts : BatchOptions) (now : Nat) :
    (∀ i ∈ selectDLQBatch items limit opts now,
      i.status = .pending ∧ i.retryAttempts < opts.maxRetryAttempts) ∧
    (selectDLQBatch items limit opts now).length ≤ limit ∧
    List.Pairwise (fun a b => a.timestamp ≤ b.timestamp)
      (selectDLQBatch items limit opts now) ∧
    selectDLQBatch [fifoItem3, fifoItem1, fifoItem2] 2 {} 1000000
      = [fifoItem1, fifoItem2] := by
  refine ⟨?_, ?_, ?_, ?_⟩
  · intro i hmem
    have h1 : i ∈ List.insertionSort (fun a b => a.timestamp ≤ b.timestamp)
        (items.filter (dlqEligible opts now)) := List.mem_of_mem_take hmem
    have h2 : i ∈ items.filter (dlqEligible opts now) :=
      (List.perm_insertionSort _ _).mem_iff.mp h1
    have h3 := List.of_mem_filter h2
    simp only [dlqEligible, Bool.and_eq_true, beq_iff_eq,
      decide_eq_true_eq] at h3
    exact ⟨h3.1.1.1, h3.1.1.2⟩
  · calc (selectDLQBatch items limit opts now).length
        ≤ limit ⊓ (List.insertionSort (fun a b => a.timestamp ≤ b.timestamp)
            (items.filter (dlqEligible opts now))).length := by
          rw [selectDLQBatch, List.length_take]
      _ ≤ limit := Nat.min_le_left _ _
  · have hs : List.Sorted (fun a b : DLQItem => a.timestamp ≤ b.timestamp)
        (List.insertionSort (fun a b => a.timestamp ≤ b.timestamp)
          (items.filter (dlqEligible opts now))) :=
      List.sorted_insertionSort _ _
    exact List.Pairwise.sublist (List.take_sublist _ _) hs
  · decide

/-- Witness for C9: in the concrete three-row pool the selected batch is the
two oldest rows, both pending and below the retry ceiling. -/
theorem process_dlq_batch_selection_witness :
    (fifoItem1 ∈ selectDLQBatch [fifoItem3, fifoItem1, fifoItem2] 2 {} 1000000 →
      fifoItem1.status = .pending ∧
      fifoItem1.retryAttempts < ({} : BatchOptions).maxRetryAttempts) ∧
    (selectDLQBatch [fifoItem3, fifoItem1, fifoItem2] 2 {} 1000000).length ≤ 2 ∧
    selectDLQBatch [fifoItem3, fifoItem1, fifoItem2] 2 {} 1000000
      = [fifoItem1, fifoItem2] :=
  ⟨(process_dlq_batch_selection [fifoItem3, fifoItem1, fifoItem2] 2 {} 1000000).1
      fifoItem1,
   (process_dlq_batch_selection [fifoItem3, fifoItem1, fifoItem2] 2 {} 1000000).2.1,
   (process_dlq_batch_selection [] 0 {} 0).2.2.2⟩

end WorkflowOrchestrator
